import Mathlib

/-!
# Verification of the IPC-webview2 RPC core

A shallow embedding of the IPC library for webview-bun:

* `src/ipc.ts` — the host-side (Bun) `IPC` class: handler registry,
  callback registry, pending-call table, `call` / `register` /
  `unregister` / `clear` / `getMethods` / `hasMethod`, and the message
  dispatcher (`handleMessage` with its `handleCall`, `handleCallback`,
  `handleResponse`, `handleError` branches, and `sendToWebView`).
* `src/webview-client.ts` — the WebView-side client object `ipc`
  (counter-based `generateId`, `call` with its 30000 ms timeout, and
  `handleMessage`).

JavaScript `Map`s are modeled as association lists with `Map`-faithful
operations (`set` replaces in place, `delete` removes the entry, keys are
unique along all reachable states).  Promise resolution is modeled by a
ledger `promises` mapping a per-call token to the promise's state; the
`resolve`/`reject` closures that a pending-call entry stores in the source
are represented by the token of the promise they settle.  Nondeterministic
environment inputs (`Date.now()`, `Math.random().toString(36).substr(2,9)`)
are passed as explicit arguments.
-/

/-- A JavaScript runtime value as it appears in IPC arguments and results.
`func` is an ordinary function object (identified by an index into the
caller's function table); `proxyFunc` is the function the dispatcher
synthesizes from a callback token (`src/ipc.ts` lines 101-108), capturing
the token's callback id. -/
inductive JSValue where
  | undef
  | null
  | bool (b : Bool)
  | num (n : Int)
  | str (s : String)
  | arr (elems : List JSValue)
  | obj (fields : List (String × JSValue))
  | func (fid : Nat)
  | proxyFunc (callbackId : String)

/-- JavaScript truthiness of a value. -/
def truthy : JSValue → Bool
  | .undef => false
  | .null => false
  | .bool b => b
  | .num n => n != 0
  | .str s => s ≠ ""
  | .arr _ => true
  | .obj _ => true
  | .func _ => true
  | .proxyFunc _ => true

/-- Truthiness of a property access: an absent property is `undefined`. -/
def truthyO : Option JSValue → Bool
  | none => false
  | some v => truthy v

/-- Property lookup on an object's field list. -/
def lookupField : List (String × JSValue) → String → Option JSValue
  | [], _ => none
  | (k, v) :: rest, key => if k = key then some v else lookupField rest key

/-- `typeof arg === 'function'` (`src/ipc.ts` line 231). -/
def isFunction : JSValue → Bool
  | .func _ => true
  | .proxyFunc _ => true
  | _ => false

/-- The callback-token test of the dispatcher:
`arg && typeof arg === 'object' && arg.__callback && arg.id`
(`src/ipc.ts` line 100). -/
def isCallbackToken : JSValue → Bool
  | .obj fields => truthyO (lookupField fields "__callback") && truthyO (lookupField fields "id")
  | _ => false

/-- The `id` property of a callback token.  The tokens minted by the
library always carry a string id (`src/ipc.ts` line 234); that string is
what the synthesized function sends as `callbackId`. -/
def tokenFieldId : JSValue → String
  | .obj fields =>
    match lookupField fields "id" with
    | some (.str s) => s
    | _ => ""
  | _ => ""

/-- The wire representation of a marshaled function:
`{ __callback: true, id: callbackId }` (`src/ipc.ts` line 234). -/
def callbackToken (callbackId : String) : JSValue :=
  .obj [("__callback", .bool true), ("id", .str callbackId)]

/-! ## JavaScript `Map` operations, modeled on association lists -/

/-- `Map.prototype.get`. -/
def mapGet {κ α : Type} [DecidableEq κ] : List (κ × α) → κ → Option α
  | [], _ => none
  | (k', v) :: rest, k => if k' = k then some v else mapGet rest k

/-- `Map.prototype.set`: replaces the value in place when the key is
present (keeping its position), appends otherwise. -/
def mapSet {κ α : Type} [DecidableEq κ] : List (κ × α) → κ → α → List (κ × α)
  | [], k, v => [(k, v)]
  | (k', v') :: rest, k, v =>
    if k' = k then (k, v) :: rest else (k', v') :: mapSet rest k v

/-- `Map.prototype.delete`. -/
def mapDelete {κ α : Type} [DecidableEq κ] : List (κ × α) → κ → List (κ × α)
  | [], _ => []
  | (k', v') :: rest, k =>
    if k' = k then mapDelete rest k else (k', v') :: mapDelete rest k

/-! ## Decimal numerals

JavaScript's number-to-string conversion, for the natural numbers the
library interpolates into ids (`Date.now()`, the argument index, the
WebView client's counter).  Implemented by structural recursion on a fuel
argument so that it evaluates inside the kernel. -/

/-- The character of a decimal digit. -/
def digitChar (d : Nat) : Char := Char.ofNat (48 + d)

/-- Big-endian decimal digits of `n` (empty when `n = 0`); `fuel ≥ n`. -/
def decReprCore : Nat → Nat → List Char
  | 0, _ => []
  | fuel + 1, n => if n = 0 then [] else decReprCore fuel (n / 10) ++ [digitChar (n % 10)]

/-- JavaScript decimal rendering of a natural number. -/
def decRepr (n : Nat) : String :=
  if n = 0 then "0" else String.mk (decReprCore n n)

/-- Decimal value of a character list (inverse of `decRepr` on numerals). -/
def decValChars (cs : List Char) : Nat :=
  cs.foldl (fun a c => 10 * a + (c.toNat - 48)) 0

/-! ## Identifier generators -/

/-- Host-side `generateId`:
`'msg_' + Date.now() + '_' + Math.random().toString(36).substr(2, 9)`
(`src/ipc.ts` lines 254-256).  `t` is the `Date.now()` reading and `rand`
the random suffix the runtime produced for this invocation. -/
def hostGenerateId (t : Nat) (rand : String) : String :=
  "msg_" ++ decRepr t ++ "_" ++ rand

/-- WebView-client `generateId` output for counter value `c`:
`'msg_' + (++this.idCounter) + '_' + Date.now()`
(`src/webview-client.ts` lines 16-18). -/
def wvGenId (c t : Nat) : String :=
  "msg_" ++ decRepr c ++ "_" ++ decRepr t

/-- Callback id minted while marshaling the argument at position `index`:
`'cb_' + method + '_' + index + '_' + Date.now()` (`src/ipc.ts` line 232;
the identical expression appears in `src/webview-client.ts` line 65). -/
def cbId (method : String) (index t : Nat) : String :=
  "cb_" ++ method ++ "_" ++ decRepr index ++ "_" ++ decRepr t

/-! ## Wire messages -/

/-- The tagged IPC message union (`src/types.ts`).  The `args = []`
defaults applied by the handlers are folded into the constructors. -/
inductive IPCMessage where
  | call (id : String) (method : String) (args : List JSValue)
  | response (id : String) (result : JSValue)
  | error (id : String) (error : String)
  | callback (id : String) (callbackId : String) (args : List JSValue)

/-! ## Promises -/

/-- Observable state of a promise created by `call()`. -/
inductive PromiseState where
  | pending
  | resolved (v : JSValue)
  | rejected (e : String)

/-- Settling a promise: `resolve`/`reject` are no-ops once the promise is
settled, so only a `pending` entry changes. -/
def settle (ps : List (Nat × PromiseState)) (token : Nat) (outcome : PromiseState) :
    List (Nat × PromiseState) :=
  match mapGet ps token with
  | some .pending => mapSet ps token outcome
  | _ => ps

/-! ## Outbound argument marshaling

`args.map((arg, index) => ...)` of `IPC.call` (`src/ipc.ts` lines 230-237):
a top-level function argument is stored in the callback registry under a
fresh id and replaced by a callback token; every other argument passes
through unchanged.  `k` is the index of the first argument of the
remaining list `args`. -/

def marshalGo (cbs : List (String × JSValue)) (method : String) (t : Nat) (k : Nat) :
    List JSValue → List (String × JSValue) × List JSValue
  | [] => (cbs, [])
  | a :: rest =>
    if isFunction a then
      ((marshalGo (mapSet cbs (cbId method k t) a) method t (k + 1) rest).1,
        callbackToken (cbId method k t) :: (marshalGo (mapSet cbs (cbId method k t) a) method t (k + 1) rest).2)
    else
      ((marshalGo cbs method t (k + 1) rest).1, a :: (marshalGo cbs method t (k + 1) rest).2)

/-- Inbound argument processing of the dispatcher (`src/ipc.ts` lines
99-111): a callback token is replaced by the synthesized function that
forwards invocations as Callback messages; everything else passes
through. -/
def unmarshalArgs (args : List JSValue) : List JSValue :=
  args.map fun a => if isCallbackToken a then JSValue.proxyFunc (tokenFieldId a) else a

/-! ## The host-side endpoint (`IPC` class, `src/ipc.ts`) -/

/-- A handler-registry entry (`src/types.ts`): the handler itself is an
async function, modeled as resolving to a value or rejecting with an error
message text. -/
structure IPCHandler where
  handler : List JSValue → Except String JSValue
  description : Option String

/-- The `IPC` instance state.  `pendingCalls` maps a call id to the token
of the promise whose `resolve`/`reject` the entry stores; `promises` is
the ledger of all promises `call()` has created, and `nextToken` the next
fresh token (every ledger key of a reachable state is below it). -/
structure IPCState where
  handlers : List (String × IPCHandler)
  callbacks : List (String × JSValue)
  pendingCalls : List (String × Nat)
  promises : List (Nat × PromiseState)
  nextToken : Nat
  webview : Bool
  isWebViewReady : Bool

/-- Constructor plus `setupWebViewBridge` (`src/ipc.ts` lines 19-48): with
no webview instance it only warns and stays not-ready; with one it binds
`ipc_send` and sets `isWebViewReady = true` immediately — without waiting
for the WebView-side bootstrap script to run. -/
def hostMk (webview : Bool) : IPCState :=
  { handlers := [], callbacks := [], pendingCalls := [], promises := []
    nextToken := 0, webview := webview, isWebViewReady := webview }

/-- `register` (`src/ipc.ts` lines 208-210). -/
def hostRegister (s : IPCState) (method : String)
    (handler : List JSValue → Except String JSValue) (description : Option String) : IPCState :=
  { s with handlers := mapSet s.handlers method ⟨handler, description⟩ }

/-- `unregister` (`src/ipc.ts` lines 215-217). -/
def hostUnregister (s : IPCState) (method : String) : IPCState :=
  { s with handlers := mapDelete s.handlers method }

/-- `getMethods` (`src/ipc.ts` lines 261-263). -/
def hostGetMethods (s : IPCState) : List String :=
  s.handlers.map (·.1)

/-- `hasMethod` (`src/ipc.ts` lines 268-270). -/
def hostHasMethod (s : IPCState) (method : String) : Bool :=
  (mapGet s.handlers method).isSome

/-- `clear` (`src/ipc.ts` lines 275-279): empties the three maps and does
nothing else — in particular it never calls the `resolve`/`reject` of a
removed pending entry, so the promise ledger is untouched. -/
def hostClear (s : IPCState) : IPCState :=
  { s with handlers := [], callbacks := [], pendingCalls := [] }

/-- Result of one `call()` invocation. `timeoutsStarted` records the
durations of the `setTimeout` timers the invocation started (the host-side
`call` contains no `setTimeout`, so it is always empty there). -/
inductive CallOutcome where
  | notReady
  | promised (callId : String) (token : Nat)

structure HostCallResult where
  state : IPCState
  sent : List IPCMessage
  timeoutsStarted : List Nat
  outcome : CallOutcome

/-- `call` (`src/ipc.ts` lines 222-249): throws `'IPC: Webview not ready'`
before touching any state when not ready; otherwise generates an id,
marshals the arguments into the callback registry, then runs the promise
executor, which registers the pending entry and sends the Call message.
`sendToWebView` (lines 180-183) throws `'IPC: Webview not initialized'`
when there is no webview; a synchronous throw inside the executor rejects
the new promise, with no rollback of the entries set before it. -/
def hostCall (s : IPCState) (method : String) (args : List JSValue) (t : Nat) (rand : String) :
    HostCallResult :=
  if s.isWebViewReady then
    let id := hostGenerateId t rand
    let marshaled := marshalGo s.callbacks method t 0 args
    let token := s.nextToken
    let s2 : IPCState :=
      { s with callbacks := marshaled.1
               pendingCalls := mapSet s.pendingCalls id token
               promises := mapSet s.promises token PromiseState.pending
               nextToken := token + 1 }
    if s.webview then
      ⟨s2, [IPCMessage.call id method marshaled.2], [], .promised id token⟩
    else
      ⟨{ s2 with promises := settle s2.promises token (.rejected "IPC: Webview not initialized") },
        [], [], .promised id token⟩
  else
    ⟨s, [], [], .notReady⟩

/-- `handleCall` (`src/ipc.ts` lines 82-127), reached through the bound
`ipc_send` function, so a webview is present and `sendToWebView` delivers;
the returned list is what it sends.  A falsy (empty) `id` or `method`
makes it return without doing anything; an unregistered method produces
the not-found Error message; otherwise the handler runs on the
token-unmarshaled arguments, and its success or failure is sent back as a
Response or Error for the same id — a handler failure is caught here and
never propagates. -/
def handleCall (s : IPCState) (id method : String) (args : List JSValue) :
    IPCState × List IPCMessage :=
  if id = "" ∨ method = "" then (s, [])
  else
    match mapGet s.handlers method with
    | none => (s, [.error id ("Method '" ++ method ++ "' not found")])
    | some h =>
      match h.handler (unmarshalArgs args) with
      | .ok result => (s, [.response id result])
      | .error e => (s, [.error id e])

/-- `handleResponse` (`src/ipc.ts` lines 150-160): resolve the pending
promise for `id`, if any, and drop the entry. -/
def handleResponse (s : IPCState) (id : String) (result : JSValue) : IPCState :=
  if id = "" then s
  else
    match mapGet s.pendingCalls id with
    | none => s
    | some token =>
      { s with promises := settle s.promises token (.resolved result)
               pendingCalls := mapDelete s.pendingCalls id }

/-- `handleError` (`src/ipc.ts` lines 165-175): reject the pending promise
for `id` with `new Error(error)`, if any, and drop the entry. -/
def handleError (s : IPCState) (id : String) (error : String) : IPCState :=
  if id = "" then s
  else
    match mapGet s.pendingCalls id with
    | none => s
    | some token =>
      { s with promises := settle s.promises token (.rejected error)
               pendingCalls := mapDelete s.pendingCalls id }

/-- `handleCallback` (`src/ipc.ts` lines 132-145): looks up the stored
callback and invokes it, catching and logging any failure.  The invoked
function is arbitrary host application code outside the IPC state (its
later interactions with the endpoint are separate operations), so the
state is unchanged. -/
def handleCallbackMsg (s : IPCState) (_callbackId : String) (_args : List JSValue) : IPCState :=
  s

/-- `handleMessage` (`src/ipc.ts` lines 62-77). -/
def handleMessage (s : IPCState) : IPCMessage → IPCState × List IPCMessage
  | .call id method args => handleCall s id method args
  | .response id result => (handleResponse s id result, [])
  | .error id e => (handleError s id e, [])
  | .callback _ callbackId args => (handleCallbackMsg s callbackId args, [])

/-- The handler that a dispatched Call message for `method` invokes, if
any: `handleCall` reaches the invocation exactly when `id` and `method`
are truthy and the registry has an entry. -/
def invokedHandler (s : IPCState) (id method : String) : Option IPCHandler :=
  if id = "" ∨ method = "" then none else mapGet s.handlers method

/-! ## Operations on a host endpoint

Everything the surrounding program can do to one `IPC` instance: the
public API plus delivery of an inbound message through the bound
`ipc_send`. -/

inductive HostOp where
  | register (method : String) (handler : List JSValue → Except String JSValue)
      (description : Option String)
  | unregister (method : String)
  | clear
  | call (method : String) (args : List JSValue) (t : Nat) (rand : String)
  | deliver (msg : IPCMessage)

def hostStep (s : IPCState) : HostOp → IPCState
  | .register m h d => hostRegister s m h d
  | .unregister m => hostUnregister s m
  | .clear => hostClear s
  | .call m args t rand => (hostCall s m args t rand).state
  | .deliver msg => (handleMessage s msg).1

def hostRun (s : IPCState) : List HostOp → IPCState
  | [] => s
  | op :: rest => hostRun (hostStep s op) rest

/-- The host process seen together with its remote context: the IPC
constructor runs before any HTML (and hence the bootstrap script produced
by `getInitScript`) is loaded into the webview, and nothing in the `IPC`
class ever reads or waits for the bootstrap having executed. -/
structure HostWorld where
  ipc : IPCState
  remoteBootstrapped : Bool

def hostWorldNew (webview : Bool) : HostWorld :=
  ⟨hostMk webview, false⟩

/-! ## The WebView-side client (`src/webview-client.ts`) -/

/-- A pending-call entry of the WebView client.  The entry holds the
(wrapped) `resolve`/`reject` of the promise identified by `token`; the
wrapped versions first clear the timer `timer` (the entry from the first
`pendingCalls.set`, before the wrapping, carries no timer). -/
structure WVPendingEntry where
  token : Nat
  timer : Option Nat

/-- An armed `setTimeout` created by the client's `call`: on firing it
deletes the pending entry for `callId` and rejects the promise `token`
with `'IPC call timeout'`. -/
structure WVTimer where
  callId : String
  token : Nat

/-- State of the WebView-side `ipc` object.  `bridgeUp` is whether
`window.ipc_send` is available; `timers` are the armed timers of the
surrounding runtime, keyed by their handle. -/
structure WVState where
  idCounter : Nat
  callbacks : List (String × JSValue)
  pendingCalls : List (String × WVPendingEntry)
  promises : List (Nat × PromiseState)
  nextToken : Nat
  timers : List (Nat × WVTimer)
  nextTimer : Nat
  bridgeUp : Bool

structure WVCallResult where
  state : WVState
  sent : List IPCMessage
  timeoutsStarted : List Nat
  callId : String
  token : Nat

/-- The client's `call` (`src/webview-client.ts` lines 33-79): increment
the id counter and build the id, then inside the promise executor register
the raw pending entry, arm a 30000 ms timeout, overwrite the entry with
the timeout-clearing wrapped resolvers, marshal function arguments into
the callback registry, and send the Call message.  `send` (lines 21-30)
throws `'IPC bridge not initialized'` when `window.ipc_send` is missing; a
synchronous executor throw rejects the promise while the entry and the
armed timer stay behind. -/
def wvCall (s : WVState) (method : String) (args : List JSValue) (t : Nat) : WVCallResult :=
  let counter := s.idCounter + 1
  let id := wvGenId counter t
  let token := s.nextToken
  let promises := mapSet s.promises token PromiseState.pending
  let pcRaw := mapSet s.pendingCalls id ⟨token, none⟩
  let timerH := s.nextTimer
  let timers := mapSet s.timers timerH ⟨id, token⟩
  let pcWrapped := mapSet pcRaw id ⟨token, some timerH⟩
  let marshaled := marshalGo s.callbacks method t 0 args
  let base : WVState :=
    { idCounter := counter, callbacks := marshaled.1, pendingCalls := pcWrapped
      promises := promises, nextToken := token + 1, timers := timers
      nextTimer := timerH + 1, bridgeUp := s.bridgeUp }
  if s.bridgeUp then
    ⟨base, [IPCMessage.call id method marshaled.2], [30000], id, token⟩
  else
    ⟨{ base with promises := settle base.promises token (.rejected "IPC bridge not initialized") },
      [], [30000], id, token⟩

/-- Expiry of an armed timer (`src/webview-client.ts` lines 41-44): the
runtime fires (and retires) the timer `h` if it is still armed; the
callback deletes the pending entry and rejects the promise with
`'IPC call timeout'` (a no-op if it was already settled). -/
def wvFireTimer (s : WVState) (h : Nat) : WVState :=
  match mapGet s.timers h with
  | none => s
  | some tm =>
    { s with timers := mapDelete s.timers h
             pendingCalls := mapDelete s.pendingCalls tm.callId
             promises := settle s.promises tm.token (.rejected "IPC call timeout") }

/-- The `response` branch of the client's `handleMessage`
(`src/webview-client.ts` lines 85-93): the entry's wrapped `resolve`
clears the timer and resolves the promise, then the entry is removed. -/
def wvHandleResponse (s : WVState) (id : String) (result : JSValue) : WVState :=
  match mapGet s.pendingCalls id with
  | none => s
  | some e =>
    { s with timers := match e.timer with
                       | some h => mapDelete s.timers h
                       | none => s.timers
             promises := settle s.promises e.token (.resolved result)
             pendingCalls := mapDelete s.pendingCalls id }

/-- The `error` branch of the client's `handleMessage`
(`src/webview-client.ts` lines 94-102). -/
def wvHandleError (s : WVState) (id : String) (error : String) : WVState :=
  match mapGet s.pendingCalls id with
  | none => s
  | some e =>
    { s with timers := match e.timer with
                       | some h => mapDelete s.timers h
                       | none => s.timers
             promises := settle s.promises e.token (.rejected error)
             pendingCalls := mapDelete s.pendingCalls id }

/-- The id produced by the `i`-th invocation (counting from 0) of the
WebView client's `generateId` within one process lifetime: the counter
starts at 0 and is pre-incremented on each invocation, so the `i`-th
invocation reads counter `i + 1`; `times i` is the `Date.now()` value that
invocation observes. -/
def wvNthId (times : Nat → Nat) (i : Nat) : String :=
  wvGenId (i + 1) (times i)

/-- Whether a list of generated ids is collision-free. -/
def pairwiseDistinct : List String → Bool
  | [] => true
  | x :: xs => (xs.all fun y => x != y) && pairwiseDistinct xs

/-- The ids the host-side generator produces for a trace of
`(Date.now(), random-suffix)` environment readings. -/
def hostIdsOf (env : List (Nat × String)) : List String :=
  env.map fun e => hostGenerateId e.1 e.2

/-! ## Lemmas about the `Map` model -/

theorem mapGet_mapSet_self {κ α : Type} [DecidableEq κ] (m : List (κ × α)) (k : κ) (v : α) :
    mapGet (mapSet m k v) k = some v := by
  induction m with
  | nil => simp [mapSet, mapGet]
  | cons p rest ih =>
    by_cases h : p.1 = k
    · simp [mapSet, mapGet, h]
    · simp [mapSet, mapGet, h, ih]

theorem mapGet_mapSet_ne {κ α : Type} [DecidableEq κ] (m : List (κ × α)) (k q : κ) (v : α)
    (h : q ≠ k) : mapGet (mapSet m k v) q = mapGet m q := by
  have hk : ¬k = q := fun hh => h (Eq.symm hh)
  induction m with
  | nil => simp [mapSet, mapGet, hk]
  | cons p rest ih =>
    by_cases hp : p.1 = k
    · simp [mapSet, mapGet, hp, hk]
    · simp only [mapSet, hp, if_false]
      by_cases hq : p.1 = q <;> simp [mapGet, hq, ih]

theorem mapGet_mapDelete_self {κ α : Type} [DecidableEq κ] (m : List (κ × α)) (k : κ) :
    mapGet (mapDelete m k) k = none := by
  induction m with
  | nil => simp [mapDelete, mapGet]
  | cons p rest ih =>
    by_cases h : p.1 = k
    · simp [mapDelete, h, ih]
    · simp [mapDelete, mapGet, h, ih]

theorem mapGet_mapDelete_ne {κ α : Type} [DecidableEq κ] (m : List (κ × α)) (k q : κ)
    (h : q ≠ k) : mapGet (mapDelete m k) q = mapGet m q := by
  have hk : ¬k = q := fun hh => h (Eq.symm hh)
  induction m with
  | nil => simp [mapDelete]
  | cons p rest ih =>
    by_cases hp : p.1 = k
    · simp [mapDelete, mapGet, hp, hk, ih]
    · by_cases hq : p.1 = q <;> simp [mapDelete, mapGet, hp, hq, hk, h, ih]

theorem mapGet_mapSet_cases {κ α : Type} [DecidableEq κ] (m : List (κ × α)) (k q : κ)
    (v u : α) (h : mapGet (mapSet m k v) q = some u) :
    (q = k ∧ u = v) ∨ mapGet m q = some u := by
  by_cases hq : q = k
  · subst hq
    rw [mapGet_mapSet_self] at h
    exact Or.inl ⟨rfl, (Option.some.injEq ..▸ h).symm⟩
  · rw [mapGet_mapSet_ne m k q v hq] at h
    exact Or.inr h

theorem mapGet_mapDelete_sub {κ α : Type} [DecidableEq κ] (m : List (κ × α)) (k q : κ)
    (u : α) (h : mapGet (mapDelete m k) q = some u) : mapGet m q = some u := by
  by_cases hq : q = k
  · subst hq; rw [mapGet_mapDelete_self] at h; cases h
  · rwa [mapGet_mapDelete_ne m k q hq] at h

theorem mapSet_mapSet_same {κ α : Type} [DecidableEq κ] (m : List (κ × α)) (k : κ)
    (v1 v2 : α) : mapSet (mapSet m k v1) k v2 = mapSet m k v2 := by
  induction m with
  | nil => simp [mapSet]
  | cons p rest ih =>
    by_cases h : p.1 = k
    · simp [mapSet, h]
    · simp [mapSet, h, ih]

theorem settle_ne (ps : List (Nat × PromiseState)) (token p : Nat) (o : PromiseState)
    (h : p ≠ token) : mapGet (settle ps token o) p = mapGet ps p := by
  unfold settle
  match mapGet ps token with
  | some .pending => exact mapGet_mapSet_ne ps token p o h
  | some (.resolved _) => rfl
  | some (.rejected _) => rfl
  | none => rfl

theorem settle_pending_self (ps : List (Nat × PromiseState)) (token : Nat) (o : PromiseState)
    (h : mapGet ps token = some PromiseState.pending) :
    mapGet (settle ps token o) token = some o := by
  unfold settle
  rw [h]
  exact mapGet_mapSet_self ps token o

/-! ## Lemmas about decimal numerals -/

theorem digitChar_toNat (d : Nat) (h : d < 10) : (digitChar d).toNat = 48 + d := by
  unfold digitChar
  interval_cases d <;> rfl

theorem decValChars_append_digit (A : List Char) (c : Char) :
    decValChars (A ++ [c]) = 10 * decValChars A + (c.toNat - 48) := by
  unfold decValChars
  rw [List.foldl_append]
  rfl

theorem decValChars_decReprCore (fuel : Nat) :
    ∀ n, n ≤ fuel → decValChars (decReprCore fuel n) = n := by
  induction fuel with
  | zero =>
    intro n hn
    interval_cases n
    rfl
  | succ fuel ih =>
    intro n hn
    by_cases h0 : n = 0
    · subst h0; rfl
    · have hpos : 0 < n := Nat.pos_of_ne_zero h0
      have hdiv : n / 10 ≤ fuel := by
        have := Nat.div_lt_self hpos (by decide : 1 < 10)
        omega
      rw [decReprCore]
      simp only [h0, if_false]
      rw [decValChars_append_digit, ih (n / 10) hdiv,
        digitChar_toNat (n % 10) (Nat.mod_lt n (by decide))]
      omega

theorem decValChars_decRepr (n : Nat) : decValChars (decRepr n).data = n := by
  by_cases h0 : n = 0
  · subst h0; rfl
  · unfold decRepr
    simp only [h0, if_false]
    exact decValChars_decReprCore n n (Nat.le_refl n)

theorem decRepr_data_inj (a b : Nat) (h : (decRepr a).data = (decRepr b).data) : a = b := by
  have ha := decValChars_decRepr a
  have hb := decValChars_decRepr b
  rw [h] at ha
  omega

theorem mem_decReprCore_digit (fuel : Nat) :
    ∀ n c, c ∈ decReprCore fuel n → ∃ d, d < 10 ∧ c = digitChar d := by
  induction fuel with
  | zero => intro n c hc; simp [decReprCore] at hc
  | succ fuel ih =>
    intro n c hc
    rw [decReprCore] at hc
    by_cases h0 : n = 0
    · simp [h0] at hc
    · simp only [h0, if_false, List.mem_append, List.mem_singleton] at hc
      rcases hc with hc | hc
      · exact ih (n / 10) c hc
      · exact ⟨n % 10, Nat.mod_lt n (by decide), hc⟩

theorem uscore_not_mem_decRepr (n : Nat) : '_' ∉ (decRepr n).data := by
  by_cases h0 : n = 0
  · subst h0; decide
  · unfold decRepr
    simp only [h0, if_false]
    intro hmem
    obtain ⟨d, hd, hc⟩ := mem_decReprCore_digit n n '_' hmem
    have : (digitChar d).toNat = 48 + d := digitChar_toNat d hd
    rw [← hc] at this
    simp only [show ('_').toNat = 95 from rfl] at this
    omega

/-- Splitting a character list at an underscore separator is unambiguous
when the left part is underscore-free. -/
theorem uscoreSplit : ∀ (xs xs' ys ys' : List Char), '_' ∉ xs → '_' ∉ xs' →
    xs ++ '_' :: ys = xs' ++ '_' :: ys' → xs = xs' ∧ ys = ys' := by
  intro xs
  induction xs with
  | nil =>
    intro xs' ys ys' _ hx' heq
    cases xs' with
    | nil => simp_all
    | cons c rest =>
      simp only [List.nil_append, List.cons_append, List.cons.injEq] at heq
      exact absurd (heq.1 ▸ List.mem_cons_self c rest) hx'
  | cons c rest ih =>
    intro xs' ys ys' hx hx' heq
    cases xs' with
    | nil =>
      simp only [List.nil_append, List.cons_append, List.cons.injEq] at heq
      exact absurd (heq.1 ▸ List.mem_cons_self c rest) hx
    | cons c' rest' =>
      simp only [List.cons_append, List.cons.injEq] at heq
      have hx2 : '_' ∉ rest := fun hm => hx (List.mem_cons_of_mem c hm)
      have hx2' : '_' ∉ rest' := fun hm => hx' (List.mem_cons_of_mem c' hm)
      obtain ⟨h1, h2⟩ := ih rest' ys ys' hx2 hx2' heq.2
      exact ⟨by rw [heq.1, h1], h2⟩

theorem wvGenId_data (c t : Nat) :
    (wvGenId c t).data =
      'm' :: 's' :: 'g' :: '_' :: ((decRepr c).data ++ '_' :: (decRepr t).data) := by
  unfold wvGenId
  rw [String.data_append, String.data_append, String.data_append]
  rw [show ("msg_" : String).data = ['m', 's', 'g', '_'] from rfl,
    show ("_" : String).data = ['_'] from rfl]
  simp [List.append_assoc]

/-- Distinct counter values give distinct WebView-client message ids. -/
theorem wvGenId_inj_left (c t c' t' : Nat) (h : wvGenId c t = wvGenId c' t') : c = c' := by
  have hd := congrArg String.data h
  rw [wvGenId_data, wvGenId_data] at hd
  simp only [List.cons.injEq, true_and] at hd
  obtain ⟨h1, _⟩ :=
    uscoreSplit (decRepr c).data (decRepr c').data (decRepr t).data (decRepr t').data
      (uscore_not_mem_decRepr c) (uscore_not_mem_decRepr c') hd
  exact decRepr_data_inj c c' h1

theorem cbId_data (m : String) (i t : Nat) :
    (cbId m i t).data =
      'c' :: 'b' :: '_' :: (m.data ++ '_' :: ((decRepr i).data ++ '_' :: (decRepr t).data)) := by
  unfold cbId
  simp only [String.data_append]
  simp [List.append_assoc]

/-- Within one `call` (same method name, same `Date.now()` reading),
distinct argument positions give distinct callback ids. -/
theorem cbId_inj_index (m : String) (i t j t' : Nat) (h : cbId m i t = cbId m j t') : i = j := by
  have hd := congrArg String.data h
  rw [cbId_data, cbId_data] at hd
  simp only [List.cons.injEq, true_and] at hd
  have hd2 : '_' :: ((decRepr i).data ++ '_' :: (decRepr t).data) =
      '_' :: ((decRepr j).data ++ '_' :: (decRepr t').data) := List.append_cancel_left hd
  simp only [List.cons.injEq, true_and] at hd2
  obtain ⟨h1, _⟩ :=
    uscoreSplit (decRepr i).data (decRepr j).data (decRepr t).data (decRepr t').data
      (uscore_not_mem_decRepr i) (uscore_not_mem_decRepr j) hd2
  exact decRepr_data_inj i j h1

theorem hostGenerateId_ne_empty (t : Nat) (rand : String) : hostGenerateId t rand ≠ "" := by
  intro h
  have hd := congrArg String.data h
  unfold hostGenerateId at hd
  rw [String.data_append, String.data_append, String.data_append,
    show ("msg_" : String).data = ['m', 's', 'g', '_'] from rfl] at hd
  simp at hd

/-! ## Lemmas about outbound marshaling -/

theorem marshalGo_out_length (m : String) (t : Nat) :
    ∀ (args : List JSValue) (cbs : List (String × JSValue)) (k : Nat),
      (marshalGo cbs m t k args).2.length = args.length := by
  intro args
  induction args with
  | nil => intro cbs k; rfl
  | cons b rest ih =>
    intro cbs k
    by_cases hb : isFunction b = true <;> simp [marshalGo, hb, ih]

theorem marshalGo_out_fn (m : String) (t : Nat) :
    ∀ (args : List JSValue) (cbs : List (String × JSValue)) (k i : Nat) (a : JSValue),
      args[i]? = some a → isFunction a = true →
      (marshalGo cbs m t k args).2[i]? = some (callbackToken (cbId m (k + i) t)) := by
  intro args
  induction args with
  | nil => intro cbs k i a ha _; simp at ha
  | cons b rest ih =>
    intro cbs k i a ha hf
    cases i with
    | zero =>
      simp only [List.getElem?_cons_zero, Option.some.injEq] at ha
      subst ha
      simp [marshalGo, hf]
    | succ i =>
      simp only [List.getElem?_cons_succ] at ha
      rw [show k + (i + 1) = k + 1 + i by omega]
      by_cases hb : isFunction b = true
      · simpa [marshalGo, hb] using ih (mapSet cbs (cbId m k t) b) (k + 1) i a ha hf
      · simpa [marshalGo, hb] using ih cbs (k + 1) i a ha hf

theorem marshalGo_out_nonfn (m : String) (t : Nat) :
    ∀ (args : List JSValue) (cbs : List (String × JSValue)) (k i : Nat) (a : JSValue),
      args[i]? = some a → isFunction a = false →
      (marshalGo cbs m t k args).2[i]? = some a := by
  intro args
  induction args with
  | nil => intro cbs k i a ha _; simp at ha
  | cons b rest ih =>
    intro cbs k i a ha hf
    cases i with
    | zero =>
      simp only [List.getElem?_cons_zero, Option.some.injEq] at ha
      subst ha
      simp [marshalGo, hf]
    | succ i =>
      simp only [List.getElem?_cons_succ] at ha
      by_cases hb : isFunction b = true
      · simpa [marshalGo, hb] using ih (mapSet cbs (cbId m k t) b) (k + 1) i a ha hf
      · simpa [marshalGo, hb] using ih cbs (k + 1) i a ha hf

theorem marshalGo_cbs_preserved (m : String) (t : Nat) :
    ∀ (args : List JSValue) (cbs : List (String × JSValue)) (k : Nat) (q : String),
      (∀ j, j < args.length → q ≠ cbId m (k + j) t) →
      mapGet (marshalGo cbs m t k args).1 q = mapGet cbs q := by
  intro args
  induction args with
  | nil => intro cbs k q _; rfl
  | cons b rest ih =>
    intro cbs k q hq
    have hrest : ∀ j, j < rest.length → q ≠ cbId m (k + 1 + j) t := by
      intro j hj
      have := hq (j + 1) (by simpa using Nat.succ_lt_succ hj)
      rwa [show k + (j + 1) = k + 1 + j by omega] at this
    by_cases hb : isFunction b = true
    · have h0 : q ≠ cbId m k t := by
        have := hq 0 (by simp)
        simpa using this
      simp only [marshalGo, hb, if_true]
      rw [ih _ (k + 1) q hrest]
      exact mapGet_mapSet_ne cbs (cbId m k t) q b h0
    · simpa [marshalGo, hb] using ih cbs (k + 1) q hrest

theorem marshalGo_cbs_stores (m : String) (t : Nat) :
    ∀ (args : List JSValue) (cbs : List (String × JSValue)) (k i : Nat) (a : JSValue),
      args[i]? = some a → isFunction a = true →
      mapGet (marshalGo cbs m t k args).1 (cbId m (k + i) t) = some a := by
  intro args
  induction args with
  | nil => intro cbs k i a ha _; simp at ha
  | cons b rest ih =>
    intro cbs k i a ha hf
    cases i with
    | zero =>
      simp only [List.getElem?_cons_zero, Option.some.injEq] at ha
      subst ha
      rw [Nat.add_zero]
      have hfb : isFunction b = true := hf
      simp only [marshalGo, hfb, if_true]
      rw [marshalGo_cbs_preserved m t rest _ (k + 1) _ ?side]
      · exact mapGet_mapSet_self cbs (cbId m k t) b
      case side =>
        intro j _ hcontra
        have := cbId_inj_index m k t (k + 1 + j) t hcontra
        omega
    | succ i =>
      simp only [List.getElem?_cons_succ] at ha
      rw [show k + (i + 1) = k + 1 + i by omega]
      by_cases hb : isFunction b = true
      · simpa [marshalGo, hb] using ih (mapSet cbs (cbId m k t) b) (k + 1) i a ha hf
      · simpa [marshalGo, hb] using ih cbs (k + 1) i a ha hf

/-! ## Preservation of an orphaned pending promise (for `clear`) -/

/-- `handleCall` never mutates the endpoint state: it only sends. -/
theorem handleCall_fst (s : IPCState) (id method : String) (args : List JSValue) :
    (handleCall s id method args).1 = s := by
  unfold handleCall
  split
  · rfl
  · split
    · rfl
    · split <;> rfl

/-- Evaluation of `hostCall` when the endpoint is ready and a webview is
present. -/
theorem hostCall_eq_ready (s : IPCState) (m : String) (args : List JSValue) (t : Nat)
    (rand : String) (hr : s.isWebViewReady = true) (hw : s.webview = true) :
    hostCall s m args t rand =
      ⟨{ s with callbacks := (marshalGo s.callbacks m t 0 args).1
                pendingCalls := mapSet s.pendingCalls (hostGenerateId t rand) s.nextToken
                promises := mapSet s.promises s.nextToken PromiseState.pending
                nextToken := s.nextToken + 1 },
        [IPCMessage.call (hostGenerateId t rand) m (marshalGo s.callbacks m t 0 args).2], [],
        .promised (hostGenerateId t rand) s.nextToken⟩ := by
  simp [hostCall, hr, hw]

/-- Evaluation of `hostCall` when the ready flag is set but the webview is
missing: `sendToWebView` throws inside the executor and the promise is
rejected, with the pending and callback entries left in place. -/
theorem hostCall_eq_ready_nowv (s : IPCState) (m : String) (args : List JSValue) (t : Nat)
    (rand : String) (hr : s.isWebViewReady = true) (hw : s.webview = false) :
    hostCall s m args t rand =
      ⟨{ s with callbacks := (marshalGo s.callbacks m t 0 args).1
                pendingCalls := mapSet s.pendingCalls (hostGenerateId t rand) s.nextToken
                promises := settle (mapSet s.promises s.nextToken PromiseState.pending)
                  s.nextToken (.rejected "IPC: Webview not initialized")
                nextToken := s.nextToken + 1 },
        [], [], .promised (hostGenerateId t rand) s.nextToken⟩ := by
  simp [hostCall, hr, hw]

/-- Evaluation of `hostCall` when the endpoint is not ready: the throw
happens before any state is touched. -/
theorem hostCall_eq_notReady (s : IPCState) (m : String) (args : List JSValue) (t : Nat)
    (rand : String) (hr : s.isWebViewReady = false) :
    hostCall s m args t rand = ⟨s, [], [], .notReady⟩ := by
  simp [hostCall, hr]

/-- Invariant: promise `p` is pending, no pending-call entry references it
(so no inbound Response/Error can settle it), and `p` is below the
freshness counter (so no later `call` re-registers it). -/
def pendingInv (p : Nat) (s : IPCState) : Prop :=
  mapGet s.promises p = some PromiseState.pending ∧
  (∀ id token, mapGet s.pendingCalls id = some token → token ≠ p) ∧
  p < s.nextToken

theorem pendingInv_step (p : Nat) (s : IPCState) (op : HostOp) (h : pendingInv p s) :
    pendingInv p (hostStep s op) := by
  obtain ⟨hpend, href, hlt⟩ := h
  cases op with
  | register m fn d => exact ⟨hpend, href, hlt⟩
  | unregister m => exact ⟨hpend, href, hlt⟩
  | clear =>
    refine ⟨hpend, ?_, hlt⟩
    intro id token hh
    simp [hostClear, mapGet] at hh
  | call m args t rand =>
    show pendingInv p (hostCall s m args t rand).state
    by_cases hr : s.isWebViewReady = true
    · have hne : p ≠ s.nextToken := by omega
      have hpend2 :
          mapGet (mapSet s.promises s.nextToken PromiseState.pending) p =
            some PromiseState.pending := by
        rw [mapGet_mapSet_ne s.promises s.nextToken p PromiseState.pending hne]
        exact hpend
      have href2 : ∀ id token,
          mapGet (mapSet s.pendingCalls (hostGenerateId t rand) s.nextToken) id = some token →
          token ≠ p := by
        intro id token hh
        rcases mapGet_mapSet_cases s.pendingCalls (hostGenerateId t rand) id s.nextToken token hh
          with ⟨_, htok⟩ | hold
        · omega
        · exact href id token hold
      by_cases hw : s.webview = true
      · rw [hostCall_eq_ready s m args t rand hr hw]
        exact ⟨hpend2, href2, by show p < s.nextToken + 1; omega⟩
      · rw [hostCall_eq_ready_nowv s m args t rand hr (by simpa using hw)]
        refine ⟨?_, href2, by show p < s.nextToken + 1; omega⟩
        show mapGet (settle (mapSet s.promises s.nextToken PromiseState.pending) s.nextToken
          (.rejected "IPC: Webview not initialized")) p = some PromiseState.pending
        rw [settle_ne _ s.nextToken p _ hne]
        exact hpend2
    · rw [hostCall_eq_notReady s m args t rand (by simpa using hr)]
      exact ⟨hpend, href, hlt⟩
  | deliver msg =>
    cases msg with
    | call id method args =>
      show pendingInv p (handleCall s id method args).1
      rw [handleCall_fst]
      exact ⟨hpend, href, hlt⟩
    | response id result =>
      show pendingInv p (handleResponse s id result)
      unfold handleResponse
      by_cases hid : id = ""
      · simp only [hid, if_true]
        exact ⟨hpend, href, hlt⟩
      · simp only [hid, if_false]
        match hpc : mapGet s.pendingCalls id with
        | none => exact ⟨hpend, href, hlt⟩
        | some token =>
          have htok : token ≠ p := href id token hpc
          refine ⟨?_, ?_, hlt⟩
          · rw [settle_ne _ token p _ (fun hh => htok hh.symm)]
            exact hpend
          · intro id' token' hh
            exact href id' token' (mapGet_mapDelete_sub _ _ _ _ hh)
    | error id e =>
      show pendingInv p (handleError s id e)
      unfold handleError
      by_cases hid : id = ""
      · simp only [hid, if_true]
        exact ⟨hpend, href, hlt⟩
      · simp only [hid, if_false]
        match hpc : mapGet s.pendingCalls id with
        | none => exact ⟨hpend, href, hlt⟩
        | some token =>
          have htok : token ≠ p := href id token hpc
          refine ⟨?_, ?_, hlt⟩
          · rw [settle_ne _ token p _ (fun hh => htok hh.symm)]
            exact hpend
          · intro id' token' hh
            exact href id' token' (mapGet_mapDelete_sub _ _ _ _ hh)
    | callback id cbid args => exact ⟨hpend, href, hlt⟩

theorem pendingInv_run (p : Nat) :
    ∀ (ops : List HostOp) (s : IPCState), pendingInv p s → pendingInv p (hostRun s ops) := by
  intro ops
  induction ops with
  | nil => intro s h; exact h
  | cons op rest ih =>
    intro s h
    exact ih (hostStep s op) (pendingInv_step p s op h)

/-- Evaluation of the WebView client's `call` when the bridge function is
available. -/
theorem wvCall_eq_bridge (s : WVState) (m : String) (args : List JSValue) (t : Nat)
    (hb : s.bridgeUp = true) :
    wvCall s m args t =
      ⟨{ idCounter := s.idCounter + 1
         callbacks := (marshalGo s.callbacks m t 0 args).1
         pendingCalls := mapSet (mapSet s.pendingCalls (wvGenId (s.idCounter + 1) t)
             ⟨s.nextToken, none⟩) (wvGenId (s.idCounter + 1) t) ⟨s.nextToken, some s.nextTimer⟩
         promises := mapSet s.promises s.nextToken PromiseState.pending
         nextToken := s.nextToken + 1
         timers := mapSet s.timers s.nextTimer ⟨wvGenId (s.idCounter + 1) t, s.nextToken⟩
         nextTimer := s.nextTimer + 1, bridgeUp := true },
        [IPCMessage.call (wvGenId (s.idCounter + 1) t) m (marshalGo s.callbacks m t 0 args).2],
        [30000], wvGenId (s.idCounter + 1) t, s.nextToken⟩ := by
  simp [wvCall, hb]

/-- C1 counterexample: the claim asserts that *every* invocation of
`call` starts a fixed-duration timeout when it registers its pending
entry.  The host-side `IPC.call` (`src/ipc.ts` lines 222-249, cited by the
claim) contains no `setTimeout` at all: a concrete ready-state invocation
registers the pending entry for its fresh id, leaves the promise pending,
and starts no timer, so an unanswered host-side call can never reject with
a timeout error. -/
theorem c1_counterexample :
    (hostCall (hostMk true) "m" [] 5 "abc").timeoutsStarted = []
    ∧ (hostCall (hostMk true) "m" [] 5 "abc").state.pendingCalls = [(hostGenerateId 5 "abc", 0)]
    ∧ mapGet (hostCall (hostMk true) "m" [] 5 "abc").state.promises 0
        = some PromiseState.pending :=
  ⟨rfl, rfl, rfl⟩

/-- C1 (amended): only the WebView-side client's `call` starts the fixed
30000 ms timeout when it registers the pending entry; on expiry the entry
is removed and the call's promise rejects with `'IPC call timeout'`, while
a Response that arrives first clears the timer so expiry can no longer
fire.  The host-side `IPC.call` starts no timeout whatsoever. -/
theorem c1_timeout_only_webview_side (s : WVState) (m : String) (args : List JSValue)
    (t : Nat) (hb : s.bridgeUp = true) :
    (wvCall s m args t).timeoutsStarted = [30000]
    ∧ mapGet (wvCall s m args t).state.timers s.nextTimer
        = some ⟨wvGenId (s.idCounter + 1) t, s.nextToken⟩
    ∧ mapGet (wvCall s m args t).state.pendingCalls (wvGenId (s.idCounter + 1) t)
        = some ⟨s.nextToken, some s.nextTimer⟩
    ∧ mapGet (wvFireTimer (wvCall s m args t).state s.nextTimer).pendingCalls
        (wvGenId (s.idCounter + 1) t) = none
    ∧ mapGet (wvFireTimer (wvCall s m args t).state s.nextTimer).promises s.nextToken
        = some (PromiseState.rejected "IPC call timeout")
    ∧ (∀ v, wvFireTimer (wvHandleResponse (wvCall s m args t).state
          (wvGenId (s.idCounter + 1) t) v) s.nextTimer
        = wvHandleResponse (wvCall s m args t).state (wvGenId (s.idCounter + 1) t) v)
    ∧ ∀ (hs : IPCState) (m2 : String) (args2 : List JSValue) (t2 : Nat) (r2 : String),
        (hostCall hs m2 args2 t2 r2).timeoutsStarted = [] := by
  rw [wvCall_eq_bridge s m args t hb]
  have htimer : mapGet (mapSet s.timers s.nextTimer
      (⟨wvGenId (s.idCounter + 1) t, s.nextToken⟩ : WVTimer)) s.nextTimer
      = some ⟨wvGenId (s.idCounter + 1) t, s.nextToken⟩ :=
    mapGet_mapSet_self s.timers s.nextTimer _
  have hpc : mapGet (mapSet (mapSet s.pendingCalls (wvGenId (s.idCounter + 1) t)
      (⟨s.nextToken, none⟩ : WVPendingEntry)) (wvGenId (s.idCounter + 1) t)
      (⟨s.nextToken, some s.nextTimer⟩ : WVPendingEntry)) (wvGenId (s.idCounter + 1) t)
      = some ⟨s.nextToken, some s.nextTimer⟩ :=
    mapGet_mapSet_self _ _ _
  refine ⟨rfl, htimer, hpc, ?_, ?_, ?_, ?_⟩
  · unfold wvFireTimer
    dsimp only
    rw [htimer]
    exact mapGet_mapDelete_self _ _
  · unfold wvFireTimer
    dsimp only
    rw [htimer]
    exact settle_pending_self _ _ _ (mapGet_mapSet_self s.promises s.nextToken _)
  · intro v
    unfold wvHandleResponse
    dsimp only
    rw [hpc]
    unfold wvFireTimer
    dsimp only
    rw [mapGet_mapDelete_self]
  · intro hs m2 args2 t2 r2
    by_cases hr : hs.isWebViewReady = true
    · by_cases hw : hs.webview = true
      · rw [hostCall_eq_ready hs m2 args2 t2 r2 hr hw]
      · rw [hostCall_eq_ready_nowv hs m2 args2 t2 r2 hr (by simpa using hw)]
    · rw [hostCall_eq_notReady hs m2 args2 t2 r2 (by simpa using hr)]

theorem c1_timeout_only_webview_side_witness :
    (⟨0, [], [], [], 0, [], 0, true⟩ : WVState).bridgeUp = true
    ∧ (wvCall ⟨0, [], [], [], 0, [], 0, true⟩ "m" [] 7).timeoutsStarted = [30000]
    ∧ mapGet (wvFireTimer (wvCall ⟨0, [], [], [], 0, [], 0, true⟩ "m" [] 7).state 0).promises 0
        = some (PromiseState.rejected "IPC call timeout") :=
  ⟨rfl, (c1_timeout_only_webview_side ⟨0, [], [], [], 0, [], 0, true⟩ "m" [] 7 rfl).1,
    (c1_timeout_only_webview_side ⟨0, [], [], [], 0, [], 0, true⟩ "m" [] 7 rfl).2.2.2.2.1⟩

/-- C2 counterexample: the host-side generator
`'msg_' + Date.now() + '_' + Math.random().toString(36).substr(2, 9)` is a
pure function of the clock reading and the 9-character random suffix, so
two distinct invocations collide whenever those environment readings
repeat (same millisecond, same truncated random output) — uniqueness is
only probabilistic, not guaranteed. -/
theorem c2_counterexample :
    pairwiseDistinct (hostIdsOf [(5, "abc"), (5, "abc")]) = false := by
  simp [pairwiseDistinct, hostIdsOf]

/-- C2 (amended): only the WebView-side generator guarantees uniqueness
within a process lifetime: it pre-increments a persistent counter, so the
`i`-th and `j`-th invocations read distinct counter values and produce
distinct id strings regardless of the clock; the host-side generator
offers no such guarantee. -/
theorem c2_wv_generator_unique (times : Nat → Nat) (i j : Nat) (hij : i ≠ j)
    (s : WVState) (m : String) (args : List JSValue) (t : Nat) :
    wvNthId times i ≠ wvNthId times j
    ∧ (wvCall s m args t).callId = wvGenId (s.idCounter + 1) t
    ∧ (wvCall s m args t).state.idCounter = s.idCounter + 1 := by
  refine ⟨?_, ?_, ?_⟩
  · intro hcontra
    have := wvGenId_inj_left (i + 1) (times i) (j + 1) (times j) hcontra
    omega
  · by_cases hb : s.bridgeUp = true <;> simp [wvCall, hb]
  · by_cases hb : s.bridgeUp = true <;> simp [wvCall, hb]

theorem c2_wv_generator_unique_witness :
    wvNthId (fun _ => 3) 0 ≠ wvNthId (fun _ => 3) 1
    ∧ (wvCall ⟨0, [], [], [], 0, [], 0, true⟩ "m" [] 7).callId = wvGenId 1 7 :=
  ⟨(c2_wv_generator_unique (fun _ => 3) 0 1 (by decide) ⟨0, [], [], [], 0, [], 0, true⟩
      "m" [] 7).1,
    (c2_wv_generator_unique (fun _ => 3) 0 1 (by decide) ⟨0, [], [], [], 0, [], 0, true⟩
      "m" [] 7).2.1⟩

/-- C3 counterexample: the claim identifies "endpoint ready" with "the
remote bootstrap script has executed", but the constructor sets
`isWebViewReady` as soon as a webview instance is supplied, before any
bootstrap can have run (`src/ipc.ts` lines 27-48).  In the freshly
constructed world (bootstrap not executed) a `call` does not fail: it
registers its pending entry and proceeds, so the message is lost in the
remote no-op `window.ipc_onmessage && ...` and the entry lingers. -/
theorem c3_counterexample :
    (hostWorldNew true).remoteBootstrapped = false
    ∧ (hostWorldNew true).ipc.isWebViewReady = true
    ∧ (hostCall (hostWorldNew true).ipc "m" [] 5 "ab").outcome
        = CallOutcome.promised (hostGenerateId 5 "ab") 0
    ∧ (hostCall (hostWorldNew true).ipc "m" [] 5 "ab").state.pendingCalls
        = [(hostGenerateId 5 "ab", 0)] :=
  ⟨rfl, rfl, rfl, rfl⟩

/-- C3 (amended): `call()` fails immediately (with `'IPC: Webview not
ready'`, before mutating the pending-call table or the callback registry)
exactly when the endpoint was constructed without a webview instance;
readiness is set at construction and does not track execution of the
remote bootstrap script. -/
theorem c3_not_ready_fails_immediately (s : IPCState) (m : String) (args : List JSValue)
    (t : Nat) (rand : String) (h : s.isWebViewReady = false) :
    hostCall s m args t rand = ⟨s, [], [], .notReady⟩
    ∧ (hostMk false).isWebViewReady = false
    ∧ (hostMk true).isWebViewReady = true :=
  ⟨hostCall_eq_notReady s m args t rand h, rfl, rfl⟩

theorem c3_not_ready_fails_immediately_witness :
    (hostMk false).isWebViewReady = false
    ∧ hostCall (hostMk false) "m" [] 1 "r" = ⟨hostMk false, [], [], .notReady⟩ :=
  ⟨rfl, (c3_not_ready_fails_immediately (hostMk false) "m" [] 1 "r" rfl).1⟩

/-- C4: for every registered method `m` with handler `h`, when the
origin's `call(m, ...args)` sends its Call message and the receiving
endpoint dispatches it (nonempty method name, so the dispatcher reaches
the handler) and `h` applied to the dispatched (token-processed) arguments
succeeds with `v`, the dispatcher sends a Response carrying `v` for the
same call id, and feeding that Response back to the origin resolves the
originating call's promise to exactly `v` and removes its pending
entry. -/
theorem c4_success_roundtrip (sA sB : IPCState) (m : String) (args : List JSValue)
    (t : Nat) (rand : String) (h : IPCHandler) (v : JSValue)
    (hready : sA.isWebViewReady = true) (hwv : sA.webview = true) (hm : m ≠ "")
    (hreg : mapGet sB.handlers m = some h)
    (hok : h.handler (unmarshalArgs (marshalGo sA.callbacks m t 0 args).2) = Except.ok v) :
    (hostCall sA m args t rand).sent
      = [IPCMessage.call (hostGenerateId t rand) m (marshalGo sA.callbacks m t 0 args).2]
    ∧ handleCall sB (hostGenerateId t rand) m (marshalGo sA.callbacks m t 0 args).2
      = (sB, [IPCMessage.response (hostGenerateId t rand) v])
    ∧ mapGet (handleResponse (hostCall sA m args t rand).state
        (hostGenerateId t rand) v).promises sA.nextToken = some (PromiseState.resolved v)
    ∧ mapGet (handleResponse (hostCall sA m args t rand).state
        (hostGenerateId t rand) v).pendingCalls (hostGenerateId t rand) = none := by
  have hid := hostGenerateId_ne_empty t rand
  rw [hostCall_eq_ready sA m args t rand hready hwv]
  refine ⟨rfl, ?_, ?_, ?_⟩
  · simp [handleCall, hid, hm, hreg, hok]
  · unfold handleResponse
    rw [if_neg hid]
    dsimp only
    rw [mapGet_mapSet_self sA.pendingCalls (hostGenerateId t rand) sA.nextToken]
    dsimp only
    exact settle_pending_self _ _ _ (mapGet_mapSet_self sA.promises sA.nextToken _)
  · unfold handleResponse
    rw [if_neg hid]
    dsimp only
    rw [mapGet_mapSet_self sA.pendingCalls (hostGenerateId t rand) sA.nextToken]
    dsimp only
    exact mapGet_mapDelete_self _ _

theorem c4_success_roundtrip_witness :
    mapGet (hostRegister (hostMk true) "echo" (fun xs => Except.ok (.arr xs)) none).handlers
        "echo" = some ⟨fun xs => Except.ok (.arr xs), none⟩
    ∧ handleCall (hostRegister (hostMk true) "echo" (fun xs => Except.ok (.arr xs)) none)
        (hostGenerateId 3 "r") "echo" (marshalGo (hostMk true).callbacks "echo" 3 0 [.num 42]).2
      = (hostRegister (hostMk true) "echo" (fun xs => Except.ok (.arr xs)) none,
          [IPCMessage.response (hostGenerateId 3 "r") (.arr [.num 42])])
    ∧ mapGet (handleResponse (hostCall (hostMk true) "echo" [.num 42] 3 "r").state
        (hostGenerateId 3 "r") (.arr [.num 42])).promises 0
      = some (PromiseState.resolved (.arr [.num 42])) :=
  ⟨rfl,
    (c4_success_roundtrip (hostMk true)
      (hostRegister (hostMk true) "echo" (fun xs => Except.ok (.arr xs)) none)
      "echo" [.num 42] 3 "r" ⟨fun xs => Except.ok (.arr xs), none⟩ (.arr [.num 42])
      rfl rfl (by decide) rfl rfl).2.1,
    (c4_success_roundtrip (hostMk true)
      (hostRegister (hostMk true) "echo" (fun xs => Except.ok (.arr xs)) none)
      "echo" [.num 42] 3 "r" ⟨fun xs => Except.ok (.arr xs), none⟩ (.arr [.num 42])
      rfl rfl (by decide) rfl rfl).2.2.1⟩

/-- C5 counterexample: the claim quantifies over *every* method name not
present in the registry, but the dispatcher's guard
`if (!id || !method) return;` treats the empty string as a missing field:
dispatching a Call whose method is `""` (absent from the empty registry)
sends nothing at all, and in particular no Error message naming the
method. -/
theorem c5_counterexample :
    mapGet (hostMk true).handlers "" = none
    ∧ handleCall (hostMk true) "x" "" [] = (hostMk true, []) :=
  ⟨rfl, rfl⟩

/-- C5 (amended): for every *nonempty* method name `m` not present in the
handler registry (dispatched with the nonempty id generated by the
originating call), the dispatcher sends back an Error message for the same
call id whose text `Method 'm' not found` contains `m`, and returns
normally; feeding that Error back to the origin rejects the originating
call's promise with that text and removes the pending entry.  Call
messages whose id or method is the empty string are silently dropped. -/
theorem c5_method_not_found (sA sB : IPCState) (m : String) (args : List JSValue)
    (t : Nat) (rand : String)
    (hready : sA.isWebViewReady = true) (hwv : sA.webview = true) (hm : m ≠ "")
    (habs : mapGet sB.handlers m = none) :
    handleCall sB (hostGenerateId t rand) m (marshalGo sA.callbacks m t 0 args).2
      = (sB, [IPCMessage.error (hostGenerateId t rand) ("Method '" ++ m ++ "' not found")])
    ∧ (∃ pre post, ("Method '" ++ m ++ "' not found") = pre ++ m ++ post)
    ∧ mapGet (handleError (hostCall sA m args t rand).state (hostGenerateId t rand)
        ("Method '" ++ m ++ "' not found")).promises sA.nextToken
      = some (PromiseState.rejected ("Method '" ++ m ++ "' not found"))
    ∧ mapGet (handleError (hostCall sA m args t rand).state (hostGenerateId t rand)
        ("Method '" ++ m ++ "' not found")).pendingCalls (hostGenerateId t rand) = none := by
  have hid := hostGenerateId_ne_empty t rand
  rw [hostCall_eq_ready sA m args t rand hready hwv]
  refine ⟨by simp [handleCall, hid, hm, habs], ⟨"Method '", "' not found", rfl⟩, ?_, ?_⟩
  · unfold handleError
    rw [if_neg hid]
    dsimp only
    rw [mapGet_mapSet_self sA.pendingCalls (hostGenerateId t rand) sA.nextToken]
    dsimp only
    exact settle_pending_self _ _ _ (mapGet_mapSet_self sA.promises sA.nextToken _)
  · unfold handleError
    rw [if_neg hid]
    dsimp only
    rw [mapGet_mapSet_self sA.pendingCalls (hostGenerateId t rand) sA.nextToken]
    dsimp only
    exact mapGet_mapDelete_self _ _

theorem c5_method_not_found_witness :
    handleCall (hostMk true) (hostGenerateId 2 "q") "missing"
        (marshalGo (hostMk true).callbacks "missing" 2 0 []).2
      = (hostMk true, [IPCMessage.error (hostGenerateId 2 "q") "Method 'missing' not found"])
    ∧ mapGet (handleError (hostCall (hostMk true) "missing" [] 2 "q").state
        (hostGenerateId 2 "q") "Method 'missing' not found").promises 0
      = some (PromiseState.rejected "Method 'missing' not found") :=
  ⟨(c5_method_not_found (hostMk true) (hostMk true) "missing" [] 2 "q"
      rfl rfl (by decide) rfl).1,
    (c5_method_not_found (hostMk true) (hostMk true) "missing" [] 2 "q"
      rfl rfl (by decide) rfl).2.2.1⟩

/-- C6: for every dispatched Call (nonempty method, so the handler is
reached) whose handler rejects with message `E`, the dispatcher catches
the failure — it returns normally, sending exactly the Error message
carrying `E` for the same call id — and feeding that Error back to the
origin rejects the originating call's promise with message `E` and removes
the pending entry. -/
theorem c6_handler_failure_roundtrip (sA sB : IPCState) (m : String) (args : List JSValue)
    (t : Nat) (rand : String) (h : IPCHandler) (E : String)
    (hready : sA.isWebViewReady = true) (hwv : sA.webview = true) (hm : m ≠ "")
    (hreg : mapGet sB.handlers m = some h)
    (hfail : h.handler (unmarshalArgs (marshalGo sA.callbacks m t 0 args).2) = Except.error E) :
    handleCall sB (hostGenerateId t rand) m (marshalGo sA.callbacks m t 0 args).2
      = (sB, [IPCMessage.error (hostGenerateId t rand) E])
    ∧ mapGet (handleError (hostCall sA m args t rand).state
        (hostGenerateId t rand) E).promises sA.nextToken = some (PromiseState.rejected E)
    ∧ mapGet (handleError (hostCall sA m args t rand).state
        (hostGenerateId t rand) E).pendingCalls (hostGenerateId t rand) = none := by
  have hid := hostGenerateId_ne_empty t rand
  rw [hostCall_eq_ready sA m args t rand hready hwv]
  refine ⟨by simp [handleCall, hid, hm, hreg, hfail], ?_, ?_⟩
  · unfold handleError
    rw [if_neg hid]
    dsimp only
    rw [mapGet_mapSet_self sA.pendingCalls (hostGenerateId t rand) sA.nextToken]
    dsimp only
    exact settle_pending_self _ _ _ (mapGet_mapSet_self sA.promises sA.nextToken _)
  · unfold handleError
    rw [if_neg hid]
    dsimp only
    rw [mapGet_mapSet_self sA.pendingCalls (hostGenerateId t rand) sA.nextToken]
    dsimp only
    exact mapGet_mapDelete_self _ _

theorem c6_handler_failure_roundtrip_witness :
    handleCall (hostRegister (hostMk true) "boom" (fun _ => Except.error "kaput") none)
        (hostGenerateId 4 "z") "boom" (marshalGo (hostMk true).callbacks "boom" 4 0 []).2
      = (hostRegister (hostMk true) "boom" (fun _ => Except.error "kaput") none,
          [IPCMessage.error (hostGenerateId 4 "z") "kaput"])
    ∧ mapGet (handleError (hostCall (hostMk true) "boom" [] 4 "z").state
        (hostGenerateId 4 "z") "kaput").promises 0
      = some (PromiseState.rejected "kaput") :=
  ⟨(c6_handler_failure_roundtrip (hostMk true)
      (hostRegister (hostMk true) "boom" (fun _ => Except.error "kaput") none)
      "boom" [] 4 "z" ⟨fun _ => Except.error "kaput", none⟩ "kaput"
      rfl rfl (by decide) rfl rfl).1,
    (c6_handler_failure_roundtrip (hostMk true)
      (hostRegister (hostMk true) "boom" (fun _ => Except.error "kaput") none)
      "boom" [] 4 "z" ⟨fun _ => Except.error "kaput", none⟩ "kaput"
      rfl rfl (by decide) rfl rfl).2.1⟩

/-- C7: marshaling of `call`'s argument list: each top-level function
argument at position `i` is replaced in the outgoing list by the token
`{__callback: true, id: cb_<method>_<i>_<Date.now()>}` and stored in the
local callback registry under that id; every non-function top-level
argument — including objects and arrays with functions nested inside them
— passes through unchanged (only top-level arguments are inspected). -/
theorem c7_callback_marshaling (cbs : List (String × JSValue)) (m : String)
    (args : List JSValue) (t : Nat) (i : Nat) (a : JSValue) (ha : args[i]? = some a) :
    (marshalGo cbs m t 0 args).2.length = args.length
    ∧ (isFunction a = true →
        (marshalGo cbs m t 0 args).2[i]? = some (callbackToken (cbId m i t))
        ∧ mapGet (marshalGo cbs m t 0 args).1 (cbId m i t) = some a)
    ∧ (isFunction a = false → (marshalGo cbs m t 0 args).2[i]? = some a) := by
  refine ⟨marshalGo_out_length m t args cbs 0, fun hf => ⟨?_, ?_⟩,
    fun hf => marshalGo_out_nonfn m t args cbs 0 i a ha hf⟩
  · simpa using marshalGo_out_fn m t args cbs 0 i a ha hf
  · simpa using marshalGo_cbs_stores m t args cbs 0 i a ha hf

theorem c7_callback_marshaling_witness :
    ([JSValue.num 1, JSValue.func 3, JSValue.obj [("f", JSValue.func 9)]][1]?
        = some (JSValue.func 3))
    ∧ (marshalGo [] "job" 7 0
        [JSValue.num 1, JSValue.func 3, JSValue.obj [("f", JSValue.func 9)]]).2[1]?
      = some (callbackToken (cbId "job" 1 7))
    ∧ (marshalGo [] "job" 7 0
        [JSValue.num 1, JSValue.func 3, JSValue.obj [("f", JSValue.func 9)]]).2[2]?
      = some (JSValue.obj [("f", JSValue.func 9)]) :=
  ⟨rfl,
    ((c7_callback_marshaling [] "job"
      [JSValue.num 1, JSValue.func 3, JSValue.obj [("f", JSValue.func 9)]] 7 1
      (JSValue.func 3) rfl).2.1 rfl).1,
    (c7_callback_marshaling [] "job"
      [JSValue.num 1, JSValue.func 3, JSValue.obj [("f", JSValue.func 9)]] 7 2
      (JSValue.obj [("f", JSValue.func 9)]) rfl).2.2 rfl⟩

/-- C8: registration replaces: `register(m, h1)` followed by
`register(m, h2)` yields exactly the registry of a single `register(m,
h2)` (the `Map.set` collapses, keys stay unique), the registry maps `m` to
the `h2` entry, and any dispatch of a Call for `m` that reaches a handler
invokes the `h2` entry — never `h1`. -/
theorem c8_register_replaces (s : IPCState) (m : String)
    (f1 f2 : List JSValue → Except String JSValue) (d1 d2 : Option String) :
    hostRegister (hostRegister s m f1 d1) m f2 d2 = hostRegister s m f2 d2
    ∧ mapGet (hostRegister (hostRegister s m f1 d1) m f2 d2).handlers m = some ⟨f2, d2⟩
    ∧ ∀ id : String, id ≠ "" → m ≠ "" →
        invokedHandler (hostRegister (hostRegister s m f1 d1) m f2 d2) id m = some ⟨f2, d2⟩ := by
  have hcol : hostRegister (hostRegister s m f1 d1) m f2 d2 = hostRegister s m f2 d2 := by
    simp [hostRegister, mapSet_mapSet_same]
  have hget : mapGet (hostRegister s m f2 d2).handlers m = some ⟨f2, d2⟩ := by
    show mapGet (mapSet s.handlers m ⟨f2, d2⟩) m = some ⟨f2, d2⟩
    exact mapGet_mapSet_self s.handlers m ⟨f2, d2⟩
  refine ⟨hcol, by rw [hcol]; exact hget, ?_⟩
  intro id hid hm
  unfold invokedHandler
  rw [if_neg (by
    intro hor
    exact hor.elim hid hm)]
  rw [hcol]
  exact hget

theorem c8_register_replaces_witness :
    invokedHandler (hostRegister (hostRegister (hostMk true) "m"
        (fun _ => Except.ok JSValue.null) none) "m"
        (fun _ => Except.ok (JSValue.num 2)) (some "v2")) "x" "m"
      = some ⟨fun _ => Except.ok (JSValue.num 2), some "v2"⟩
    ∧ hostRegister (hostRegister (hostMk true) "m" (fun _ => Except.ok JSValue.null) none)
        "m" (fun _ => Except.ok (JSValue.num 2)) (some "v2")
      = hostRegister (hostMk true) "m" (fun _ => Except.ok (JSValue.num 2)) (some "v2") :=
  ⟨(c8_register_replaces (hostMk true) "m" (fun _ => Except.ok JSValue.null)
      (fun _ => Except.ok (JSValue.num 2)) none (some "v2")).2.2 "x" (by decide) (by decide),
    (c8_register_replaces (hostMk true) "m" (fun _ => Except.ok JSValue.null)
      (fun _ => Except.ok (JSValue.num 2)) none (some "v2")).1⟩

/-- C9: `clear()` empties the handler registry (so `getMethods()` returns
the empty list), the callback registry and the pending-call table; it
leaves the promise ledger untouched — no removed pending entry has its
`resolve` or `reject` invoked — and a promise that was pending when
`clear()` ran stays pending under every subsequent sequence of operations
on the endpoint (its hypotheses `hp`/`hlt` say the promise is pending and
its token is below the freshness counter, which holds for every promise a
reachable state contains). -/
theorem c9_clear_leaves_pending_forever (s : IPCState) (p : Nat)
    (hp : mapGet s.promises p = some PromiseState.pending) (hlt : p < s.nextToken) :
    (hostClear s).handlers = []
    ∧ (hostClear s).callbacks = []
    ∧ (hostClear s).pendingCalls = []
    ∧ hostGetMethods (hostClear s) = []
    ∧ (hostClear s).promises = s.promises
    ∧ ∀ ops : List HostOp,
        mapGet (hostRun (hostClear s) ops).promises p = some PromiseState.pending := by
  refine ⟨rfl, rfl, rfl, rfl, rfl, ?_⟩
  intro ops
  have hinv : pendingInv p (hostClear s) := by
    refine ⟨hp, ?_, hlt⟩
    intro id token hh
    simp [hostClear, mapGet] at hh
  exact (pendingInv_run p ops (hostClear s) hinv).1

theorem c9_clear_leaves_pending_forever_witness :
    mapGet (hostCall (hostMk true) "m" [] 1 "r").state.promises 0 = some PromiseState.pending
    ∧ mapGet (hostRun (hostClear (hostCall (hostMk true) "m" [] 1 "r").state)
        [HostOp.deliver (IPCMessage.response (hostGenerateId 1 "r") (JSValue.num 9)),
          HostOp.call "x" [] 2 "q", HostOp.clear]).promises 0 = some PromiseState.pending :=
  ⟨rfl,
    (c9_clear_leaves_pending_forever (hostCall (hostMk true) "m" [] 1 "r").state 0
      rfl (by decide)).2.2.2.2.2
      [HostOp.deliver (IPCMessage.response (hostGenerateId 1 "r") (JSValue.num 9)),
        HostOp.call "x" [] 2 "q", HostOp.clear]⟩

/-- C10: `call()` is not atomic on send failure.  In a state where the
ready flag is set but no webview instance is present, `sendToWebView`
throws `'IPC: Webview not initialized'` inside the promise executor, so
the promise returned by `call` is rejected with that send error — yet the
pending entry for the freshly generated call id and every callback-registry
entry minted for the call's function arguments remain in the endpoint's
maps, and nothing is sent. -/
theorem c10_no_rollback_on_send_failure (s : IPCState) (m : String) (args : List JSValue)
    (t : Nat) (rand : String) (hready : s.isWebViewReady = true) (hw : s.webview = false) :
    (hostCall s m args t rand).outcome
      = CallOutcome.promised (hostGenerateId t rand) s.nextToken
    ∧ (hostCall s m args t rand).sent = []
    ∧ mapGet (hostCall s m args t rand).state.promises s.nextToken
        = some (PromiseState.rejected "IPC: Webview not initialized")
    ∧ mapGet (hostCall s m args t rand).state.pendingCalls (hostGenerateId t rand)
        = some s.nextToken
    ∧ ∀ i a, args[i]? = some a → isFunction a = true →
        mapGet (hostCall s m args t rand).state.callbacks (cbId m i t) = some a := by
  rw [hostCall_eq_ready_nowv s m args t rand hready hw]
  refine ⟨rfl, rfl, ?_, ?_, ?_⟩
  · show mapGet (settle (mapSet s.promises s.nextToken PromiseState.pending) s.nextToken
      (.rejected "IPC: Webview not initialized")) s.nextToken = _
    exact settle_pending_self _ _ _ (mapGet_mapSet_self s.promises s.nextToken _)
  · show mapGet (mapSet s.pendingCalls (hostGenerateId t rand) s.nextToken)
      (hostGenerateId t rand) = some s.nextToken
    exact mapGet_mapSet_self s.pendingCalls (hostGenerateId t rand) s.nextToken
  · intro i a ha hf
    show mapGet (marshalGo s.callbacks m t 0 args).1 (cbId m i t) = some a
    simpa using marshalGo_cbs_stores m t args s.callbacks 0 i a ha hf

theorem c10_no_rollback_on_send_failure_witness :
    mapGet (hostCall ⟨[], [], [], [], 0, false, true⟩ "m" [JSValue.func 5] 6 "w").state.promises 0
      = some (PromiseState.rejected "IPC: Webview not initialized")
    ∧ mapGet (hostCall ⟨[], [], [], [], 0, false, true⟩ "m"
        [JSValue.func 5] 6 "w").state.pendingCalls (hostGenerateId 6 "w") = some 0
    ∧ mapGet (hostCall ⟨[], [], [], [], 0, false, true⟩ "m"
        [JSValue.func 5] 6 "w").state.callbacks (cbId "m" 0 6) = some (JSValue.func 5) :=
  ⟨(c10_no_rollback_on_send_failure ⟨[], [], [], [], 0, false, true⟩ "m"
      [JSValue.func 5] 6 "w" rfl rfl).2.2.1,
    (c10_no_rollback_on_send_failure ⟨[], [], [], [], 0, false, true⟩ "m"
      [JSValue.func 5] 6 "w" rfl rfl).2.2.2.1,
    (c10_no_rollback_on_send_failure ⟨[], [], [], [], 0, false, true⟩ "m"
      [JSValue.func 5] 6 "w" rfl rfl).2.2.2.2 0 (JSValue.func 5) rfl rfl⟩
